import Mathlib

/-!
Verification of the BieniciScraper repository (src/config.py, src/models.py,
src/utils.py, src/scraper.py, src/main.py) against its natural-language
specification.  Python runtime values stored in the per-listing dictionaries
are modelled by the inductive type `PyVal` (strings, ints, floats as exact
rationals, booleans, and `None`), dictionaries by insertion-ordered
association lists with unique keys, and Python truthiness by `truthy`.
Functions that can raise are modelled with `Except`; all other functions are
total, mirroring their source.
-/

/-- A Python value as stored in the scraper's per-listing dictionaries.
Floats are modelled as exact rationals (no claim here depends on binary
rounding), `None` as `vNone`. -/
inductive PyVal where
  | vStr (s : String)
  | vInt (n : Int)
  | vFloat (q : ℚ)
  | vBool (b : Bool)
  | vNone
  deriving DecidableEq

open PyVal

/-- Python truthiness of a `PyVal`: empty string, zero, `False` and `None`
are falsy. -/
def truthy : PyVal → Bool
  | vStr s => !s.isEmpty
  | vInt n => n != 0
  | vFloat q => q != 0
  | vBool b => b
  | vNone => false

/-- Truthiness of `dict.get(k)`: an absent key reads as `None`, hence falsy. -/
def truthyOpt : Option PyVal → Bool
  | some v => truthy v
  | none => false

/-- A Python dict keyed by strings: an insertion-ordered association list
(keys are unique in every dict the code builds). -/
def PyDict := List (String × PyVal)

instance : DecidableEq PyDict := inferInstanceAs (DecidableEq (List (String × PyVal)))

/-- `d.get(k)` / `d[k]` read access: first entry with the key. -/
def dictGet (d : PyDict) (k : String) : Option PyVal :=
  match d with
  | [] => none
  | (k', v) :: rest => if k' = k then some v else dictGet rest k

/-- `d[k] = v`: replace the value in place if the key exists (dict order is
preserved — dicts built by the code have unique keys), otherwise append the
new entry at the end. -/
def dictSet (d : PyDict) (k : String) (v : PyVal) : PyDict :=
  match d with
  | [] => [(k, v)]
  | (k', v') :: rest => if k' = k then (k, v) :: rest else (k', v') :: dictSet rest k v

/-- Conditional assignment `if m: d[k] = f(m)` for an optional match result. -/
def maybeSet (d : PyDict) (k : String) (v : Option PyVal) : PyDict :=
  match v with
  | some v => dictSet d k v
  | none => d

/-- Keys of a dict, in order. -/
def dictKeys (d : PyDict) : List String :=
  (d : List (String × PyVal)).map Prod.fst

-- Basic lookup/update lemmas.

theorem dictGet_dictSet_self (d : PyDict) (k : String) (v : PyVal) :
    dictGet (dictSet d k v) k = some v := by
  induction d with
  | nil => simp [dictSet, dictGet]
  | cons p rest ih =>
    obtain ⟨k', v'⟩ := p
    by_cases hp : k' = k
    · simp [dictSet, hp, dictGet]
    · simp [dictSet, hp, dictGet, ih]

theorem dictGet_dictSet_ne (d : PyDict) (k k' : String) (v : PyVal) (h : k' ≠ k) :
    dictGet (dictSet d k' v) k = dictGet d k := by
  induction d with
  | nil => simp [dictSet, dictGet, h]
  | cons p rest ih =>
    obtain ⟨k₀, v₀⟩ := p
    by_cases hp : k₀ = k'
    · subst hp
      simp [dictSet, dictGet, h, Ne.symm h]
    · by_cases hk : k₀ = k
      · subst hk
        simp [dictSet, hp, dictGet]
      · simp [dictSet, hp, dictGet, hk, ih]

theorem dictGet_maybeSet_ne (d : PyDict) (k k' : String) (v : Option PyVal) (h : k' ≠ k) :
    dictGet (maybeSet d k' v) k = dictGet d k := by
  cases v with
  | none => rfl
  | some v => exact dictGet_dictSet_ne d k k' v h

-- ### Configuration (src/config.py)

def SCRAPINGANT_API_URL : String := "https://api.scrapingant.com/v2/general"

def BASE_URL : String := "https://www.bienici.com"

def SEARCH_URL : String := "https://www.bienici.com/recherche"

def DEFAULT_TIMEOUT : Nat := 120

def MAX_RETRIES : Nat := 3

def DEFAULT_MAX_WORKERS : Nat := 10

def LOCATIONS : List (String × String) :=
  [("paris", "paris-75000"), ("lyon", "lyon-69000"), ("marseille", "marseille-13000"),
   ("toulouse", "toulouse-31000"), ("nice", "nice-06000"), ("nantes", "nantes-44000"),
   ("montpellier", "montpellier-34000"), ("strasbourg", "strasbourg-67000"),
   ("bordeaux", "bordeaux-33000"), ("lille", "lille-59000"), ("rennes", "rennes-35000"),
   ("reims", "reims-51100"), ("saint-etienne", "saint-etienne-42000"),
   ("le-havre", "le-havre-76600"), ("toulon", "toulon-83000"),
   ("grenoble", "grenoble-38000"), ("dijon", "dijon-21000"), ("angers", "angers-49000"),
   ("nimes", "nimes-30000"), ("aix-en-provence", "aix-en-provence-13100")]

def CONTRACT_TYPES : List (String × String) :=
  [("buy", "achat"), ("rent", "location"), ("new", "achat")]

def PROPERTY_TYPES : List (String × String) :=
  [("all", ""), ("apartment", "appartement"), ("house", "maisonvilla"),
   ("land", "terrain"), ("parking", "parking"), ("commercial", "commerce"),
   ("office", "bureaux")]

/-- Python `table.get(key, default)` on a string-to-string table. -/
def tableGetD (t : List (String × String)) (k : String) (dflt : String) : String :=
  match t.lookup k with
  | some v => v
  | none => dflt

-- ### Scraper construction (src/scraper.py, BieniciScraper.__init__)

/-- The scraper state set up by `BieniciScraper.__init__` (the requests
session carries no data relevant to the claims). -/
structure Scraper where
  api_key : String
  max_workers : Nat
  timeout : Nat
  deriving DecidableEq

/-- `BieniciScraper.__init__(api_key, max_workers, timeout)`: the key is the
explicit argument if truthy, else the `SCRAPINGANT_API_KEY` environment value
(empty when unset); an empty resolved key raises `ValueError` before anything
else happens (no fetch is issued during construction). -/
def scraperInit (api_key : Option String) (envApiKey : String)
    (max_workers : Nat) (timeout : Nat) : Except String Scraper :=
  let key := match api_key with
    | some k => if k.isEmpty then envApiKey else k
    | none => envApiKey
  if key.isEmpty then
    Except.error "ScrapingAnt API key is required. Set SCRAPINGANT_API_KEY environment variable or pass api_key parameter."
  else
    Except.ok ⟨key, max_workers, timeout⟩

/-- `BieniciScraper(api_key=None-or-value)` with the source's default
arguments `max_workers=5, timeout=DEFAULT_TIMEOUT`. -/
def scraperInitDefaults (api_key : Option String) (envApiKey : String) :
    Except String Scraper :=
  scraperInit api_key envApiKey 5 DEFAULT_TIMEOUT

/-- Worker-pool size used for the remaining-pages fan-out in `scrape`
(`ThreadPoolExecutor(max_workers=self.max_workers)`). -/
def pagePoolSize (s : Scraper) : Nat := s.max_workers

/-- Worker-pool size used for the detail-fetch fan-out in
`_enrich_with_details` (`ThreadPoolExecutor(max_workers=self.max_workers)`). -/
def detailPoolSize (s : Scraper) : Nat := s.max_workers

-- ### Search-URL construction (src/scraper.py, _build_search_url)

/-- Python `str.lower()` on one character, over the ASCII and Latin-1
letters the program works with. -/
def pyLowerChar (c : Char) : Char :=
  if 'A' ≤ c ∧ c ≤ 'Z' then Char.ofNat (c.toNat + 32)
  else if 0xC0 ≤ c.toNat ∧ c.toNat ≤ 0xDE ∧ c.toNat ≠ 0xD7 then Char.ofNat (c.toNat + 32)
  else c

/-- Python `str.lower()`. -/
def pyLower (s : String) : String := String.mk (s.data.map pyLowerChar)

/-- Location segment: `LOCATIONS.get(location.lower(), location)` — an
unknown location is used verbatim (original casing). -/
def locationSegment (location : String) : String :=
  tableGetD LOCATIONS (pyLower location) location

/-- Contract segment: `CONTRACT_TYPES.get(contract_type.lower(), "achat")`. -/
def contractSegment (contract_type : String) : String :=
  tableGetD CONTRACT_TYPES (pyLower contract_type) "achat"

/-- `_build_search_url(location, contract_type, property_type, page)`. -/
def buildSearchUrl (location contract_type property_type : String) (page : Nat) : String :=
  let location_code := locationSegment location
  let contract := contractSegment contract_type
  let url_parts := [SEARCH_URL, contract, location_code]
  let prop_type := tableGetD PROPERTY_TYPES (pyLower property_type) ""
  let url_parts := if prop_type.isEmpty then url_parts else url_parts ++ [prop_type]
  let url := String.intercalate "/" url_parts
  if page > 1 then url ++ "?page=" ++ toString page else url

-- ### Total-page estimate (src/scraper.py, scrape, lines 236-238)

/-- `listings_per_page = max(len(first_page_properties), 24)`. -/
def listingsPerPage (firstPageCount : Nat) : Nat := max firstPageCount 24

/-- `total_pages = (total_count + listings_per_page - 1) // listings_per_page`. -/
def totalPagesEstimate (totalCount firstPageCount : Nat) : Nat :=
  (totalCount + listingsPerPage firstPageCount - 1) / listingsPerPage firstPageCount

-- ### Deduplication (src/scraper.py, scrape, lines 275-282)

/-- The dedup loop of `scrape`: walk the records in order carrying the `seen`
set; keep a record the first time a truthy `listing_id` shows up, drop
records lacking one. -/
def dedupeGo (seen : List PyVal) : List PyDict → List PyDict
  | [] => []
  | p :: rest =>
    match dictGet p "listing_id" with
    | some v =>
      if truthy v ∧ v ∉ seen then p :: dedupeGo (v :: seen) rest
      else dedupeGo seen rest
    | none => dedupeGo seen rest

/-- `scrape`'s deduplication of the accumulated page records. -/
def dedupeProperties (props : List PyDict) : List PyDict := dedupeGo [] props

/-- Modelled from the spec claim's words: keep exactly the records whose
`listing_id` is present and non-empty (truthy) and whose id has not occurred
in any earlier record, preserving first-seen order; `prev` is the list of
records already walked. -/
def dedupeClaimGo (prev : List PyDict) : List PyDict → List PyDict
  | [] => []
  | p :: rest =>
    if truthyOpt (dictGet p "listing_id") ∧
        ¬ ∃ q ∈ prev, dictGet q "listing_id" = dictGet p "listing_id" then
      p :: dedupeClaimGo (prev ++ [p]) rest
    else
      dedupeClaimGo (prev ++ [p]) rest

/-- The claim-side deduplication of a record sequence. -/
def dedupeClaim (props : List PyDict) : List PyDict := dedupeClaimGo [] props

-- ### Limit application and detail-fetch fan-out (src/scraper.py)

/-- Python list slicing `l[:n]` for an `int` argument `n` (negative `n`
counts from the end). -/
def pySliceTo (l : List PyDict) (n : Int) : List PyDict :=
  if 0 ≤ n then l.take n.toNat else l.take (l.length - (-n).toNat)

/-- `if limit: unique_properties = unique_properties[:limit]` — note the
truthiness test: `limit=0` (and `limit=None`) leave the list untouched. -/
def applyLimit (limit : Option Int) (l : List PyDict) : List PyDict :=
  match limit with
  | some n => if n ≠ 0 then pySliceTo l n else l
  | none => l

/-- The url list `_enrich_with_details` fans detail fetches over:
`urls = [p.get("url") for p in properties if p.get("url")]`. -/
def urlsFromProps (props : List PyDict) : List PyVal :=
  props.filterMap (fun p =>
    match dictGet p "url" with
    | some v => if truthy v then some v else none
    | none => none)

/-- The detail-page urls actually fetched by `scrape location ... limit`:
the limit is applied to the deduplicated list (lines 284-286) before
`_enrich_with_details` builds its url fan-out (lines 291-293, 315). -/
def detailFetchUrls (limit : Option Int) (props : List PyDict) : List PyVal :=
  urlsFromProps (applyLimit limit (dedupeProperties props))

-- ### Detail merge (src/scraper.py, _enrich_with_details, lines 332-347)

/-- The fixed always-prefer-detail key list of `_enrich_with_details`. -/
def alwaysPreferDetail : List String :=
  ["description", "agency_name", "agency_address",
   "energy_rating", "ges_rating", "floor", "exposure",
   "heating_type", "published_date", "modified_date",
   "reference", "mandate_type", "energy_consumption",
   "ges_emission", "energy_bill_min", "energy_bill_max",
   "price_without_fees", "agency_fees_percent"]

/-- One iteration of the merge loop: `if value and (not merged.get(key) or
key in [...]): merged[key] = value`. -/
def mergeStep (merged : PyDict) (kv : String × PyVal) : PyDict :=
  if truthy kv.2 ∧ (truthyOpt (dictGet merged kv.1) = false ∨ kv.1 ∈ alwaysPreferDetail) then
    dictSet merged kv.1 kv.2
  else
    merged

/-- The merge of `_enrich_with_details`: start from a copy of the index
record and fold the loop body over `detail.items()`. -/
def mergeDetail (index detail : PyDict) : PyDict :=
  (detail : List (String × PyVal)).foldl mergeStep index

/-- Modelled from the spec claim's words: the merged record maps `k` to the
detail value exactly when that value is present and truthy and (the index
value is absent/falsy or `k` is in the always-prefer-detail set); otherwise
it keeps the index value. -/
def mergeSpecGet (index detail : PyDict) (k : String) : Option PyVal :=
  match dictGet detail k with
  | some v =>
    if truthy v ∧ (truthyOpt (dictGet index k) = false ∨ k ∈ alwaysPreferDetail) then
      some v
    else
      dictGet index k
  | none => dictGet index k


-- Merge characterization helpers.

theorem mergeDetail_cons (index : PyDict) (kv : String × PyVal)
    (rest : List (String × PyVal)) :
    mergeDetail index (kv :: rest) = mergeDetail (mergeStep index kv) rest := rfl

theorem dictGet_mergeDetail_notMem (index : PyDict) (detail : List (String × PyVal))
    (k : String) (h : k ∉ detail.map Prod.fst) :
    dictGet (mergeDetail index detail) k = dictGet index k := by
  induction detail generalizing index with
  | nil => rfl
  | cons kv rest ih =>
    simp only [List.map_cons, List.mem_cons, not_or] at h
    rw [mergeDetail_cons, ih _ h.2]
    unfold mergeStep
    split
    · exact dictGet_dictSet_ne _ _ _ _ (fun he => h.1 he.symm)
    · rfl

theorem dictGet_mergeDetail (index detail : PyDict) (k : String)
    (hnd : (dictKeys detail).Nodup) :
    dictGet (mergeDetail index detail) k = mergeSpecGet index detail k := by
  induction detail generalizing index with
  | nil => rfl
  | cons kv rest ih =>
    obtain ⟨k', v⟩ := kv
    simp only [dictKeys, List.map_cons, List.nodup_cons] at hnd
    by_cases hk : k' = k
    · subst hk
      rw [mergeDetail_cons, dictGet_mergeDetail_notMem _ _ _ hnd.1]
      have hspec : mergeSpecGet index (((k', v) :: rest : List (String × PyVal))) k' =
          if truthy v = true ∧ (truthyOpt (dictGet index k') = false ∨ k' ∈ alwaysPreferDetail)
          then some v else dictGet index k' := by
        unfold mergeSpecGet
        simp [dictGet]
      rw [hspec]
      simp only [mergeStep]
      by_cases hc : truthy v = true ∧
          (truthyOpt (dictGet index k') = false ∨ k' ∈ alwaysPreferDetail)
      · rw [if_pos hc, if_pos hc, dictGet_dictSet_self]
      · rw [if_neg hc, if_neg hc]
    · rw [mergeDetail_cons, ih _ hnd.2]
      have hstep : dictGet (mergeStep index (k', v)) k = dictGet index k := by
        unfold mergeStep
        split
        · exact dictGet_dictSet_ne _ _ _ _ hk
        · rfl
      have hdd : dictGet (((k', v) :: rest : List (String × PyVal)) : PyDict) k
          = dictGet rest k := by
        simp [dictGet, hk]
      unfold mergeSpecGet
      simp only [hdd, hstep]

-- Dedup characterization helpers.

theorem exists_append_singleton {α : Type} (l : List α) (a : α) (P : α → Prop) :
    (∃ q ∈ l ++ [a], P q) ↔ (∃ q ∈ l, P q) ∨ P a := by
  constructor
  · rintro ⟨q, hq, hP⟩
    rcases List.mem_append.1 hq with h | h
    · exact Or.inl ⟨q, h, hP⟩
    · rw [List.mem_singleton] at h
      subst h
      exact Or.inr hP
  · rintro (⟨q, hq, hP⟩ | hP)
    · exact ⟨q, List.mem_append_left _ hq, hP⟩
    · exact ⟨a, List.mem_append_right _ (List.mem_singleton.2 rfl), hP⟩

theorem dedupeGo_eq_claimGo (l : List PyDict) (seen : List PyVal) (prev : List PyDict)
    (hinv : ∀ v : PyVal, truthy v →
      (v ∈ seen ↔ ∃ q ∈ prev, dictGet q "listing_id" = some v)) :
    dedupeGo seen l = dedupeClaimGo prev l := by
  induction l generalizing seen prev with
  | nil => rfl
  | cons p rest ih =>
    cases hid : dictGet p "listing_id" with
    | none =>
      simp only [dedupeGo, dedupeClaimGo, hid, truthyOpt, Bool.false_eq_true, false_and,
        not_false_eq_true, if_neg]
      refine ih seen (prev ++ [p]) (fun v hv => ?_)
      rw [hinv v hv, exists_append_singleton, hid]
      simp
    | some v =>
      by_cases htr : truthy v = true
      · by_cases hseen : v ∈ seen
        · have hex := (hinv v htr).1 hseen
          have hgo : ¬(truthy v = true ∧ v ∉ seen) := fun hc => hc.2 hseen
          have hcl : ¬(truthy v = true ∧
              ¬∃ q ∈ prev, dictGet q "listing_id" = some v) := fun hc => hc.2 hex
          simp only [dedupeGo, dedupeClaimGo, hid, truthyOpt, if_neg hgo, if_neg hcl]
          refine ih seen (prev ++ [p]) (fun w hw => ?_)
          rw [hinv w hw, exists_append_singleton, hid]
          constructor
          · exact Or.inl
          · rintro (h | h)
            · exact h
            · obtain rfl : v = w := by injection h
              exact hex
        · have hnex : ¬∃ q ∈ prev, dictGet q "listing_id" = some v :=
            fun hex => hseen ((hinv v htr).2 hex)
          have hgo : truthy v = true ∧ v ∉ seen := ⟨htr, hseen⟩
          have hcl : truthy v = true ∧
              ¬∃ q ∈ prev, dictGet q "listing_id" = some v := ⟨htr, hnex⟩
          simp only [dedupeGo, dedupeClaimGo, hid, truthyOpt, if_pos hgo, if_pos hcl]
          refine congrArg (fun l => p :: l) (ih (v :: seen) (prev ++ [p]) (fun w hw => ?_))
          rw [List.mem_cons, hinv w hw, exists_append_singleton, hid]
          constructor
          · rintro (rfl | h)
            · exact Or.inr rfl
            · exact Or.inl h
          · rintro (h | h)
            · exact Or.inr h
            · obtain rfl : v = w := by injection h
              exact Or.inl rfl
      · have hgo : ¬(truthy v = true ∧ v ∉ seen) := fun hc => htr hc.1
        have hcl : ¬(truthy v = true ∧
            ¬∃ q ∈ prev, dictGet q "listing_id" = some v) := fun hc => htr hc.1
        simp only [dedupeGo, dedupeClaimGo, hid, truthyOpt, if_neg hgo, if_neg hcl]
        refine ih seen (prev ++ [p]) (fun w hw => ?_)
        rw [hinv w hw, exists_append_singleton, hid]
        constructor
        · exact Or.inl
        · rintro (h | h)
          · exact h
          · obtain rfl : v = w := by injection h
            exact absurd hw htr

-- ### The Property dataclass (src/models.py)

/-- The field names of the `Property` dataclass, in declaration order.
Every field has a default, so `Property(**d)` succeeds exactly when every
key of `d` is one of these names (dataclasses do not type-check values);
an unexpected keyword raises `TypeError`. -/
def propertyFields : List String :=
  ["url", "listing_id", "title", "property_type", "contract_type",
   "price", "price_per_sqm", "price_without_fees", "agency_fees_percent",
   "city", "district", "postal_code", "full_address",
   "living_area", "rooms", "bedrooms", "floor", "exposure", "heating_type",
   "energy_rating", "energy_consumption", "ges_rating", "ges_emission",
   "energy_bill_min", "energy_bill_max", "has_video", "is_exclusive",
   "price_drop", "agency_name", "agency_address", "mandate_type",
   "reference", "description", "published_date", "modified_date",
   "date_scraped"]

/-- Whether `Property(**d)` succeeds for the merged dict `d`. -/
def propertyCtorAccepts (d : PyDict) : Bool :=
  (dictKeys d).all (fun k => propertyFields.contains k)

/-- The record-construction loop of `scrape` (lines 296-301): each dict is
turned into a `Property`; one that raises is logged and dropped.  The kept
dicts are returned (the `Property` carries the same data plus the
`date_scraped` stamp, irrelevant to the claims). -/
def buildRecords (l : List PyDict) : List PyDict :=
  l.filter propertyCtorAccepts

-- ### Field parser parse_price (src/utils.py, lines 381-400)

/-- Python's `\d` on the character set the claims quantify over (ASCII). -/
def pyIsDigitChar (c : Char) : Bool := c.isDigit

/-- Value of a digit string as computed by Python `int`. -/
def digitsToNat (ds : List Char) : Nat :=
  ds.foldl (fun a c => 10 * a + (c.toNat - 48)) 0

/-- `parse_price`: falsy input gives `None`; otherwise strip every
non-digit character and parse the remainder as an integer, `None` if the
remainder is empty (`int` cannot fail on an all-digit string, so the
`try` never fires). -/
def parse_price (text : String) : Option Int :=
  if text.isEmpty then none
  else
    let clean := text.data.filter pyIsDigitChar
    if clean.isEmpty then none
    else some (Int.ofNat (digitsToNat clean))

theorem foldl_base10_eq_ofDigits (l : List Nat) :
    l.foldl (fun a d => 10 * a + d) 0 = Nat.ofDigits 10 l.reverse := by
  induction l using List.reverseRecOn with
  | nil => simp [Nat.ofDigits]
  | append_singleton l d ih =>
    rw [List.foldl_append, List.reverse_append]
    simp only [List.foldl_cons, List.foldl_nil, List.reverse_cons, List.reverse_nil,
      List.nil_append, List.singleton_append, Nat.ofDigits_cons, ih]
    omega

theorem digitsToNat_eq_ofDigits (ds : List Char) :
    digitsToNat ds = Nat.ofDigits 10 ((ds.map (fun c => c.toNat - 48)).reverse) := by
  rw [← foldl_base10_eq_ofDigits (ds.map (fun c => c.toNat - 48)), List.foldl_map]
  rfl

-- ### Ceiling characterization of the total-page estimate

theorem totalPages_ceil (tc cards : Nat) :
    totalPagesEstimate tc cards = ⌈(tc : ℚ) / ((listingsPerPage cards : Nat) : ℚ)⌉₊ := by
  have hL24 : 24 ≤ listingsPerPage cards := le_max_right _ _
  set L := listingsPerPage cards with hLdef
  have hLpos : 0 < L := lt_of_lt_of_le (by norm_num) hL24
  rcases Nat.eq_zero_or_pos tc with h0 | hpos
  · subst h0
    have h1 : totalPagesEstimate 0 cards = 0 := by
      unfold totalPagesEstimate
      rw [← hLdef]
      exact Nat.div_eq_of_lt (by omega)
    rw [h1]
    simp
  · have hdm : L * ((tc + L - 1) / L) + (tc + L - 1) % L = tc + L - 1 :=
      Nat.div_add_mod _ _
    obtain ⟨n, hn⟩ : ∃ n, (tc + L - 1) / L = n := ⟨_, rfl⟩
    obtain ⟨r, hr⟩ : ∃ r, (tc + L - 1) % L = r := ⟨_, rfl⟩
    rw [hn, hr] at hdm
    have hrlt : r < L := hr ▸ Nat.mod_lt _ hLpos
    have hn1 : 1 ≤ n := by
      rw [← hn, Nat.le_div_iff_mul_le hLpos]
      omega
    have hmul : L * n = L * (n - 1) + L := by
      calc L * n = L * ((n - 1) + 1) := by rw [Nat.sub_add_cancel hn1]
      _ = L * (n - 1) + L := Nat.mul_succ _ _
    have hA : tc ≤ L * n := by omega
    have hB : L * (n - 1) < tc := by omega
    have hne : n ≠ 0 := by omega
    have hcalc : ⌈(tc : ℚ) / (L : ℚ)⌉₊ = n := by
      rw [Nat.ceil_eq_iff hne]
      constructor
      · rw [lt_div_iff₀ (by exact_mod_cast hLpos)]
        calc ((n - 1 : Nat) : ℚ) * (L : ℚ) = (((n - 1) * L : Nat) : ℚ) := by push_cast; ring
        _ < (tc : ℚ) := by exact_mod_cast (Nat.mul_comm L (n - 1) ▸ hB)
      · rw [div_le_iff₀ (by exact_mod_cast hLpos)]
        calc (tc : ℚ) ≤ ((L * n : Nat) : ℚ) := by exact_mod_cast hA
        _ = (n : ℚ) * (L : ℚ) := by push_cast; ring
    unfold totalPagesEstimate
    rw [← hLdef, hn, hcalc]

-- ### Claim theorems (part 1: claims not involving the HTML extractors)

/-- C1: merging a detail record into an index record maps every key to the
detail value exactly when that value is present and truthy and (the index
value is absent/falsy or the key is in the fixed always-prefer-detail set),
and otherwise keeps the index value; in particular index price=300000
without description merged with detail price=310000, description="x" keeps
price=300000 and gap-fills description="x". -/
theorem C1_merge_precedence (index detail : PyDict) (k : String)
    (hnd : (dictKeys detail).Nodup) :
    dictGet (mergeDetail index detail) k = mergeSpecGet index detail k ∧
    dictGet (mergeDetail [("price", vInt 300000)]
      [("price", vInt 310000), ("description", vStr "x")]) "price" = some (vInt 300000) ∧
    dictGet (mergeDetail [("price", vInt 300000)]
      [("price", vInt 310000), ("description", vStr "x")]) "description" = some (vStr "x") :=
  ⟨dictGet_mergeDetail index detail k hnd, by decide, by decide⟩

/-- C1 witness: the characterization applied at the claim's concrete
example, with the keys-nodup hypothesis discharged by evaluation. -/
theorem C1_merge_precedence_witness :
    (dictKeys [("price", vInt 310000), ("description", vStr "x")]).Nodup ∧
    dictGet (mergeDetail [("price", vInt 300000)]
        [("price", vInt 310000), ("description", vStr "x")]) "price" =
      mergeSpecGet [("price", vInt 300000)]
        [("price", vInt 310000), ("description", vStr "x")] "price" :=
  ⟨by decide,
   (C1_merge_precedence [("price", vInt 300000)]
     [("price", vInt 310000), ("description", vStr "x")] "price" (by decide)).1⟩

/-- C3: the dedup pass keeps exactly the records whose listing_id is present,
truthy, and first-seen, preserving order; ids [A, B, A, C] yield [A, B, C]. -/
theorem C3_dedup_first_seen (props : List PyDict) :
    dedupeProperties props = dedupeClaim props ∧
    dedupeProperties [[("listing_id", vStr "A")], [("listing_id", vStr "B")],
        [("listing_id", vStr "A")], [("listing_id", vStr "C")]] =
      [[("listing_id", vStr "A")], [("listing_id", vStr "B")], [("listing_id", vStr "C")]] :=
  ⟨dedupeGo_eq_claimGo props [] [] (by simp), by decide⟩

/-- C5 counterexample: with `limit=0` the truthiness test `if limit:` skips
truncation, so a detail fetch is issued for a listing beyond the first 0,
refuting the claim as stated at the input limit=0 with a single record. -/
theorem C5_counterexample :
    ¬ (detailFetchUrls (some 0)
        [[("listing_id", vStr "A"), ("url", vStr "https://www.bienici.com/annonce/vente/x/1/a")]] =
      urlsFromProps (List.take ((0 : Int)).toNat (dedupeProperties
        [[("listing_id", vStr "A"), ("url", vStr "https://www.bienici.com/annonce/vente/x/1/a")]]))) := by
  decide

/-- C5 amended: for every positive limit n, the deduplicated list is
truncated to its first n records before the detail fan-out is built, so a
detail fetch is only ever issued for urls of the first n unique records. -/
theorem C5_amended_limit_before_details (n : Int) (hn : 0 < n) (props : List PyDict) :
    detailFetchUrls (some n) props =
      urlsFromProps ((dedupeProperties props).take n.toNat) := by
  simp only [detailFetchUrls, applyLimit, pySliceTo]
  rw [if_pos (by omega : n ≠ 0), if_pos (le_of_lt hn)]

/-- C5 witness: the amended statement applied at limit=1 on one record. -/
theorem C5_amended_witness :
    (0 : Int) < 1 ∧
    detailFetchUrls (some 1)
        [[("listing_id", vStr "A"), ("url", vStr "https://www.bienici.com/annonce/vente/x/1/a")]] =
      urlsFromProps ((dedupeProperties
        [[("listing_id", vStr "A"), ("url", vStr "https://www.bienici.com/annonce/vente/x/1/a")]]).take
          ((1 : Int)).toNat) :=
  ⟨by decide, C5_amended_limit_before_details 1 (by decide) _⟩

/-- C6: the total-page estimate is the ceiling of total_count divided by
max(first-page card count, 24); at total_count=100 it is 5 both for 24 and
for 10 first-page cards. -/
theorem C6_total_page_estimate (tc cards : Nat) (hcards : 1 ≤ cards) :
    totalPagesEstimate tc cards = ⌈(tc : ℚ) / ((max cards 24 : Nat) : ℚ)⌉₊ ∧
    totalPagesEstimate 100 24 = 5 ∧ totalPagesEstimate 100 10 = 5 :=
  ⟨totalPages_ceil tc cards, by decide, by decide⟩

/-- C6 witness: the estimate theorem applied at total_count=100 with 24
first-page cards. -/
theorem C6_total_page_estimate_witness :
    1 ≤ 24 ∧ (totalPagesEstimate 100 24 = ⌈(100 : ℚ) / ((max 24 24 : Nat) : ℚ)⌉₊ ∧
      totalPagesEstimate 100 24 = 5 ∧ totalPagesEstimate 100 10 = 5) :=
  ⟨by decide, C6_total_page_estimate 100 24 (by decide)⟩

/-- C7 counterexample: constructing the scraper without a worker count
yields `max_workers = 5`, not 10, for both fan-out pools (the value 10 is
only `DEFAULT_MAX_WORKERS`, the CLI default in main.py). -/
theorem C7_counterexample :
    scraperInitDefaults (some "k") "" = Except.ok ⟨"k", 5, DEFAULT_TIMEOUT⟩ ∧
    pagePoolSize ⟨"k", 5, DEFAULT_TIMEOUT⟩ ≠ 10 ∧
    detailPoolSize ⟨"k", 5, DEFAULT_TIMEOUT⟩ ≠ 10 :=
  ⟨rfl, by decide, by decide⟩

/-- C7 amended: the worker pool is configurable and both fan-outs use the
configured size, but the constructor default is 5 (10 is only the CLI
default defined in config.py and passed by main.py). -/
theorem C7_amended_default_workers (k env : String) (w t : Nat)
    (hk : k.isEmpty = false) :
    scraperInit (some k) env w t = Except.ok ⟨k, w, t⟩ ∧
    scraperInitDefaults (some k) env = Except.ok ⟨k, 5, DEFAULT_TIMEOUT⟩ ∧
    (∀ s : Scraper, scraperInitDefaults (some k) env = Except.ok s →
      pagePoolSize s = 5 ∧ detailPoolSize s = 5) := by
  refine ⟨by simp [scraperInit, hk], by simp [scraperInitDefaults, scraperInit, hk], ?_⟩
  intro s hs
  simp only [scraperInitDefaults, scraperInit, hk] at hs
  simp only [Bool.false_eq_true, if_false, if_neg] at hs
  rw [if_neg (by simp [hk])] at hs
  injection hs with hs
  subst hs
  exact ⟨rfl, rfl⟩

/-- C7 witness: the amended statement applied at a concrete key. -/
theorem C7_amended_witness :
    ("k" : String).isEmpty = false ∧
    scraperInit (some "k") "" 7 9 = Except.ok ⟨"k", 7, 9⟩ :=
  ⟨by decide, (C7_amended_default_workers "k" "" 7 9 (by decide)).1⟩

/-- C8: on a string of ASCII digits, spaces and non-breaking spaces,
parse_price returns the integer denoted by the digits in order (it is a
total function, so it cannot raise); on a string with no digit, including
the empty string, it returns None. -/
theorem C8_parse_price (s : String)
    (hchars : ∀ c ∈ s.data, c.isDigit = true ∨ c = ' ' ∨ c = '\xa0') :
    ((∃ c ∈ s.data, c.isDigit = true) →
      parse_price s = some (Int.ofNat (Nat.ofDigits 10
        (((s.data.filter (fun c => c.isDigit)).map (fun c => c.toNat - 48)).reverse)))) ∧
    ((¬ ∃ c ∈ s.data, c.isDigit = true) → parse_price s = none) := by
  constructor
  · intro hex
    have hne : ¬ (s.data.filter pyIsDigitChar).isEmpty = true := by
      obtain ⟨c, hc, hd⟩ := hex
      simp only [List.isEmpty_iff]
      intro hemp
      have : c ∈ s.data.filter pyIsDigitChar := List.mem_filter.2 ⟨hc, hd⟩
      rw [hemp] at this
      exact absurd this (List.not_mem_nil c)
    have hse : ¬ s.isEmpty = true := by
      obtain ⟨c, hc, _⟩ := hex
      simp only [String.isEmpty_iff]
      intro hemp
      rw [hemp] at hc
      exact absurd hc (List.not_mem_nil c)
    unfold parse_price
    rw [if_neg hse, if_neg hne, digitsToNat_eq_ofDigits]
    rfl
  · intro hnex
    unfold parse_price
    by_cases hse : s.isEmpty = true
    · rw [if_pos hse]
    · rw [if_neg hse]
      have hemp : (s.data.filter pyIsDigitChar).isEmpty = true := by
        rw [List.isEmpty_iff, List.filter_eq_nil_iff]
        intro c hc
        intro hd
        exact hnex ⟨c, hc, hd⟩
      rw [if_pos hemp]

/-- C8 witness: parse_price applied to "30 000" (spaces as thousands
separators) and to the digitless empty string. -/
theorem C8_parse_price_witness :
    (∀ c ∈ ("30 000" : String).data, c.isDigit = true ∨ c = ' ' ∨ c = '\xa0') ∧
    parse_price "30 000" = some (Int.ofNat (Nat.ofDigits 10
      (((("30 000" : String).data.filter (fun c => c.isDigit)).map
        (fun c => c.toNat - 48)).reverse))) ∧
    parse_price "" = none :=
  ⟨by decide,
   (C8_parse_price "30 000" (by decide)).1 (by decide),
   (C8_parse_price "" (by decide)).2 (by decide)⟩

/-- C9: with no explicit override and an empty process-wide credential the
constructor raises ValueError (construction performs no fetch); with a
credential available construction succeeds, and a truthy explicit override
takes precedence over the environment value. -/
theorem C9_api_key_resolution (k env : String) (w t : Nat)
    (henv : env.isEmpty = false) (hk : k.isEmpty = false) :
    (∃ e, scraperInit none "" w t = Except.error e) ∧
    scraperInit none env w t = Except.ok ⟨env, w, t⟩ ∧
    scraperInit (some k) env w t = Except.ok ⟨k, w, t⟩ :=
  ⟨⟨_, rfl⟩, by simp [scraperInit, henv], by simp [scraperInit, hk]⟩

/-- C9 witness: key resolution at env="E", override="K". -/
theorem C9_api_key_resolution_witness :
    ("E" : String).isEmpty = false ∧ ("K" : String).isEmpty = false ∧
    ((∃ e, scraperInit none "" 3 4 = Except.error e) ∧
      scraperInit none "E" 3 4 = Except.ok ⟨"E", 3, 4⟩ ∧
      scraperInit (some "K") "E" 3 4 = Except.ok ⟨"K", 3, 4⟩) :=
  ⟨by decide, by decide, C9_api_key_resolution "K" "E" 3 4 (by decide) (by decide)⟩

/-- C10: a contract_type whose lowercase form is not in the CONTRACT_TYPES
vocabulary silently maps to the French segment "achat", giving the same URL
as contract_type="buy"; an unknown location string is used verbatim as the
location segment. -/
theorem C10_unknown_vocab_fallback (ct loc pt : String) (page : Nat) :
    (CONTRACT_TYPES.lookup (pyLower ct) = none →
      contractSegment ct = "achat" ∧
      buildSearchUrl loc ct pt page = buildSearchUrl loc "buy" pt page) ∧
    (LOCATIONS.lookup (pyLower loc) = none → locationSegment loc = loc) := by
  constructor
  · intro hct
    have hseg : contractSegment ct = "achat" := by
      unfold contractSegment tableGetD
      rw [hct]
    refine ⟨hseg, ?_⟩
    unfold buildSearchUrl
    rw [hseg]
    rfl
  · intro hloc
    unfold locationSegment tableGetD
    rw [hloc]

/-- C10 witness: fallback behavior at the unknown inputs "Xyz" / "gotham". -/
theorem C10_unknown_vocab_fallback_witness :
    (CONTRACT_TYPES.lookup (pyLower "Xyz") = none ∧
      LOCATIONS.lookup (pyLower "gotham") = none) ∧
    (contractSegment "Xyz" = "achat" ∧
      buildSearchUrl "gotham" "Xyz" "all" 1 = buildSearchUrl "gotham" "buy" "all" 1) ∧
    locationSegment "gotham" = "gotham" :=
  ⟨⟨by decide, by decide⟩,
   (C10_unknown_vocab_fallback "Xyz" "gotham" "all" 1).1 (by decide),
   (C10_unknown_vocab_fallback "Xyz" "gotham" "all" 1).2 (by decide)⟩

-- ### Character classes and scanning combinators for the regex passes
-- (src/utils.py).  Python `re` semantics are realized directly: each
-- pattern used by the source is compiled by hand into a matcher over
-- `List Char`; `searchWith` tries the pattern at every position left to
-- right, which is `re.search` behavior.  For the patterns at hand the
-- greedy/lazy quantifier semantics are deterministic except where noted,
-- and the noted spots implement the backtracking order explicitly.

/-- Python `\s` (including the no-break space, which Python treats as
whitespace). -/
def pyIsSpaceChar (c : Char) : Bool :=
  c = ' ' || c = '\t' || c = '\n' || c = '\r' || c.toNat = 11 || c.toNat = 12 || c.toNat = 0xa0

/-- Python `\w` over the ASCII plus Latin letter ranges occurring in the
site's French text. -/
def pyIsWordChar (c : Char) : Bool :=
  c.isAlphanum || c = '_' ||
    (0xC0 ≤ c.toNat && c.toNat ≤ 0x17F && c.toNat ≠ 0xD7 && c.toNat ≠ 0xF7)

/-- Python `str.strip()`. -/
def pyStrip (cs : List Char) : List Char :=
  ((cs.dropWhile pyIsSpaceChar).reverse.dropWhile pyIsSpaceChar).reverse

/-- Consume an exact literal, returning the rest. -/
def dropLit : List Char → List Char → Option (List Char)
  | [], cs => some cs
  | _ :: _, [] => none
  | l :: ls, c :: cs => if c = l then dropLit ls cs else none

/-- Consume an exact literal case-insensitively (re.IGNORECASE). -/
def dropLitCI : List Char → List Char → Option (List Char)
  | [], cs => some cs
  | _ :: _, [] => none
  | l :: ls, c :: cs => if pyLowerChar c = pyLowerChar l then dropLitCI ls cs else none

/-- Python `needle in haystack` on character lists. -/
def containsSeq (needle : List Char) : List Char → Bool
  | [] => needle.isEmpty
  | c :: rest => (dropLit needle (c :: rest)).isSome || containsSeq needle rest

/-- Greedy one-or-more character-class match (`cls+`): the maximal nonempty
prefix satisfying the class, with the remainder. -/
def takeWhile1 (p : Char → Bool) (cs : List Char) : Option (List Char × List Char) :=
  if (cs.takeWhile p).isEmpty then none else some (cs.takeWhile p, cs.dropWhile p)

/-- `re.search`: try the position matcher at every position, leftmost
match wins. -/
def searchWith {α : Type} (f : List Char → Option α) : List Char → Option α
  | [] => f []
  | c :: cs =>
    match f (c :: cs) with
    | some r => some r
    | none => searchWith f cs

/-- Lazy one-or-more group `(allowed+?)` followed by a terminator test on
the remainder: the shortest nonempty prefix of allowed characters after
which the terminator matches (the terminator is tried before every
extension, which is the lazy order). -/
def lazyGroupT (allowed : Char → Bool) (term : List Char → Bool) : List Char → Option (List Char)
  | [] => none
  | c :: rest =>
    if allowed c then
      if term rest then some [c]
      else
        match lazyGroupT allowed term rest with
        | some g => some (c :: g)
        | none => none
    else none

/-- Backtracking for `\s+` followed by a continuation whose group may also
start with whitespace: Python tries the longest whitespace run first, down
to one character. -/
def wsTryFrom {α : Type} (f : List Char → Option α) (cs : List Char) : Nat → Option α
  | 0 => none
  | Nat.succ k =>
    match f (cs.drop (Nat.succ k)) with
    | some r => some r
    | none => wsTryFrom f cs k

def wsPlusThen {α : Type} (f : List Char → Option α) (cs : List Char) : Option α :=
  wsTryFrom f cs (cs.takeWhile pyIsSpaceChar).length

/-- Same for `\s*`: longest run first, down to the empty run. -/
def wsStarTryFrom {α : Type} (f : List Char → Option α) (cs : List Char) : Nat → Option α
  | 0 => f cs
  | Nat.succ k =>
    match f (cs.drop (Nat.succ k)) with
    | some r => some r
    | none => wsStarTryFrom f cs k

def wsStarThen {α : Type} (f : List Char → Option α) (cs : List Char) : Option α :=
  wsStarTryFrom f cs (cs.takeWhile pyIsSpaceChar).length

/-- `\s*(cls+)` when whitespace is inside `cls` (so the greedy `\s*` keeps
every whitespace character it can while leaving the group nonempty):
returns (group, remainder). -/
def wsStarClassPlus (cls : Char → Bool) (cs : List Char) : Option (List Char × List Char) :=
  let run := cs.takeWhile cls
  let rest := cs.dropWhile cls
  if run.isEmpty then none
  else
    let sp := run.takeWhile pyIsSpaceChar
    if sp.length = run.length then some (run.drop (run.length - 1), rest)
    else some (run.drop sp.length, rest)

-- Terminator `(?:\n|$|\.)` — `$` also matches just before a final newline.
def nlDotTerm (rest : List Char) : Bool :=
  match rest with
  | [] => true
  | c :: _ => c = '\n' || c = '.'

-- ### The individual regex passes of parse_property_detail and
-- parse_title_text (src/utils.py)

/-- Class `[\d\s\xa0]` of the price patterns. -/
def priceClass (c : Char) : Bool := c.isDigit || pyIsSpaceChar c

/-- Class `[\d\s\xa0,]` of the price-per-m² pattern. -/
def sqmClass (c : Char) : Bool := c.isDigit || pyIsSpaceChar c || c = ','

/-- Class `[\d,\.]` of the fees and "k"-number patterns. -/
def feesClass (c : Char) : Bool := c.isDigit || c = ',' || c = '.'

/-- `(\d[\d\s\xa0]*)\s*€(?!\s*/\s*m)` at one position; returns group(0). -/
def detailPriceAt (cs : List Char) : Option (List Char) :=
  match cs with
  | [] => none
  | c :: rest =>
    if c.isDigit then
      let run := rest.takeWhile priceClass
      let after := rest.dropWhile priceClass
      match after with
      | '€' :: tail =>
        match tail.dropWhile pyIsSpaceChar with
        | '/' :: t2 =>
          match t2.dropWhile pyIsSpaceChar with
          | 'm' :: _ => none
          | _ => some (c :: run ++ ['€'])
        | _ => some (c :: run ++ ['€'])
      | _ => none
    else none

def detailPriceSearch : List Char → Option (List Char) := searchWith detailPriceAt

/-- `(\d[\d\s\xa0,]*)\s*€\s*/\s*m²` at one position; returns group(0). -/
def sqmAt (cs : List Char) : Option (List Char) :=
  match cs with
  | [] => none
  | c :: rest =>
    if c.isDigit then
      let run := rest.takeWhile sqmClass
      let after := rest.dropWhile sqmClass
      match after with
      | '€' :: tail =>
        let s1 := tail.takeWhile pyIsSpaceChar
        match tail.dropWhile pyIsSpaceChar with
        | '/' :: t2 =>
          let s2 := t2.takeWhile pyIsSpaceChar
          match t2.dropWhile pyIsSpaceChar with
          | 'm' :: '²' :: _ =>
            some ((c :: run ++ ['€']) ++ s1 ++ ['/'] ++ s2 ++ ['m', '²'])
          | _ => none
        | _ => none
      | _ => none
    else none

def sqmSearch : List Char → Option (List Char) := searchWith sqmAt

/-- `Honoraires\s*:\s*([\d,\.]+)\s*%` at one position; returns group(1). -/
def feesAt (cs : List Char) : Option (List Char) :=
  match dropLit "Honoraires".data cs with
  | none => none
  | some r1 =>
    match r1.dropWhile pyIsSpaceChar with
    | ':' :: r3 =>
      match takeWhile1 feesClass (r3.dropWhile pyIsSpaceChar) with
      | some (g, r5) =>
        match r5.dropWhile pyIsSpaceChar with
        | '%' :: _ => some g
        | _ => none
      | none => none
    | _ => none

def feesSearch : List Char → Option (List Char) := searchWith feesAt

/-- `\(([\d\s\xa0]+)\s*€\s*hors\s*honoraires\)` at one position; group(1). -/
def priceHorsAt (cs : List Char) : Option (List Char) :=
  match cs with
  | '(' :: r1 =>
    match takeWhile1 priceClass r1 with
    | some (g, r2) =>
      match r2 with
      | '€' :: r3 =>
        match dropLit "hors".data (r3.dropWhile pyIsSpaceChar) with
        | some r4 =>
          match dropLit "honoraires".data (r4.dropWhile pyIsSpaceChar) with
          | some (')' :: _) => some g
          | _ => none
        | none => none
      | _ => none
    | none => none
  | _ => none

def priceHorsSearch : List Char → Option (List Char) := searchWith priceHorsAt

/-- Tail `\s*étage` of the floor pattern. -/
def floorTailOk (r : List Char) : Bool :=
  (dropLit "étage".data (r.dropWhile pyIsSpaceChar)).isSome

/-- `(\d+)(?:er|ème|e)?\s*étage|Rez-de-chaussée` at one position; the first
alternative yields the digit group, the second yields a ground-floor
marker. -/
def floorAt (cs : List Char) : Option (Option (List Char)) :=
  match takeWhile1 Char.isDigit cs with
  | some (ds, r) =>
    if (match dropLit "er".data r with | some r2 => floorTailOk r2 | none => false) then
      some (some ds)
    else if (match dropLit "ème".data r with | some r2 => floorTailOk r2 | none => false) then
      some (some ds)
    else if (match dropLit "e".data r with | some r2 => floorTailOk r2 | none => false) then
      some (some ds)
    else if floorTailOk r then some (some ds)
    else if (dropLit "Rez-de-chaussée".data cs).isSome then some none
    else none
  | none =>
    if (dropLit "Rez-de-chaussée".data cs).isSome then some none else none

def floorSearch : List Char → Option (Option (List Char)) := searchWith floorAt

/-- `Exposé?\s+([\w\s]+?)(?:\n|$|\.)` at one position; returns group(1). -/
def exposureAt (cs : List Char) : Option (List Char) :=
  match dropLit "Expos".data cs with
  | some r1 =>
    let r2 := match r1 with
      | 'é' :: t => t
      | _ => r1
    wsPlusThen (lazyGroupT (fun c => pyIsWordChar c || pyIsSpaceChar c) nlDotTerm) r2
  | none => none

def exposureSearch : List Char → Option (List Char) := searchWith exposureAt

/-- `Chauffage\s*:\s*([^\.]+?)(?:\n|$|\.)` at one position; returns
group(1). -/
def heatingAt (cs : List Char) : Option (List Char) :=
  match dropLit "Chauffage".data cs with
  | some r1 =>
    match r1.dropWhile pyIsSpaceChar with
    | ':' :: r3 => wsStarThen (lazyGroupT (fun c => c ≠ '.') nlDotTerm) r3
    | _ => none
  | none => none

def heatingSearch : List Char → Option (List Char) := searchWith heatingAt

/-- `Date de réalisation du DPE\s*:\s*(\d+\s+\w+\s+\d+)` at one position;
returns group(1). -/
def dpeAt (cs : List Char) : Option (List Char) :=
  match dropLit "Date de réalisation du DPE".data cs with
  | none => none
  | some r1 =>
    match r1.dropWhile pyIsSpaceChar with
    | ':' :: r3 =>
      match takeWhile1 Char.isDigit (r3.dropWhile pyIsSpaceChar) with
      | some (d1, r5) =>
        match takeWhile1 pyIsSpaceChar r5 with
        | some (s1, r6) =>
          match takeWhile1 pyIsWordChar r6 with
          | some (w, r7) =>
            match takeWhile1 pyIsSpaceChar r7 with
            | some (s2, r8) =>
              match takeWhile1 Char.isDigit r8 with
              | some (d2, _) => some (d1 ++ s1 ++ w ++ s2 ++ d2)
              | none => none
            | none => none
          | none => none
        | none => none
      | none => none
    | _ => none

def dpeSearch : List Char → Option (List Char) := searchWith dpeAt

/-- `[A-G]` (case-sensitive). -/
def isUpperAG (c : Char) : Bool := 'A' ≤ c && c ≤ 'G'

/-- `[A-G]` under re.IGNORECASE. -/
def isAGci (c : Char) : Bool := ('A' ≤ c && c ≤ 'G') || ('a' ≤ c && c ≤ 'g')

/-- `(\d+)\s*kWh` at one position; returns the digit group. -/
def energyTailAt (cs : List Char) : Option (List Char) :=
  match takeWhile1 Char.isDigit cs with
  | some (ds, r) =>
    if (dropLit "kWh".data (r.dropWhile pyIsSpaceChar)).isSome then some ds else none
  | none => none

def energyTailSearch : List Char → Option (List Char) := searchWith energyTailAt

/-- `\b([A-G])\b.*?(\d+)\s*kWh` with re.DOTALL over the energy-section
text: scan for a boundary-isolated A-G letter (tracking the previous
character for `\b`), then lazily search forward for the consumption tail. -/
def energyRatingScan (prev : Option Char) : List Char → Option (Char × List Char)
  | [] => none
  | c :: rest =>
    if isUpperAG c &&
        (match prev with | some p => !pyIsWordChar p | none => true) &&
        (match rest with | r :: _ => !pyIsWordChar r | [] => true) then
      match energyTailSearch rest with
      | some ds => some (c, ds)
      | none => energyRatingScan (some c) rest
    else energyRatingScan (some c) rest

def energyRatingSearch (cs : List Char) : Option (Char × List Char) :=
  energyRatingScan none cs

/-- `([A-G])\s*(\d+)\s*kg\s*CO` (IGNORECASE) at one position. -/
def gesTailAt (cs : List Char) : Option (Char × List Char) :=
  match cs with
  | [] => none
  | c :: r1 =>
    if isAGci c then
      match takeWhile1 Char.isDigit (r1.dropWhile pyIsSpaceChar) with
      | some (ds, r3) =>
        match dropLitCI "kg".data (r3.dropWhile pyIsSpaceChar) with
        | some r4 =>
          if (dropLitCI "CO".data (r4.dropWhile pyIsSpaceChar)).isSome then some (c, ds)
          else none
        | none => none
      | none => none
    else none

/-- `émissions.*?([A-G])\s*(\d+)\s*kg\s*CO` (IGNORECASE, DOTALL) at one
position. -/
def gesAt (cs : List Char) : Option (Char × List Char) :=
  match dropLitCI "émissions".data cs with
  | some r => searchWith gesTailAt r
  | none => none

def gesSearch : List Char → Option (Char × List Char) := searchWith gesAt

/-- Class `[\d\s]` of the energy-bill pattern. -/
def billClass (c : Char) : Bool := c.isDigit || pyIsSpaceChar c

/-- `Entre\s*([\d\s]+)\s*€\s*et\s*([\d\s]+)\s*€\s*par\s*an` at one
position; returns the two groups. -/
def billAt (cs : List Char) : Option (List Char × List Char) :=
  match dropLit "Entre".data cs with
  | none => none
  | some r1 =>
    match wsStarClassPlus billClass r1 with
    | some (g1, r2) =>
      match r2 with
      | '€' :: r3 =>
        match dropLit "et".data (r3.dropWhile pyIsSpaceChar) with
        | some r4 =>
          match wsStarClassPlus billClass r4 with
          | some (g2, r5) =>
            match r5 with
            | '€' :: r6 =>
              match dropLit "par".data (r6.dropWhile pyIsSpaceChar) with
              | some r7 =>
                if (dropLit "an".data (r7.dropWhile pyIsSpaceChar)).isSome then
                  some (g1, g2)
                else none
              | none => none
            | _ => none
          | none => none
        | none => none
      | _ => none
    | none => none

def billSearch : List Char → Option (List Char × List Char) := searchWith billAt

/-- `:\s*(\S+)` tail of the reference pattern. -/
def refColon (r : List Char) : Option (List Char) :=
  match r with
  | ':' :: r2 => (takeWhile1 (fun c => !pyIsSpaceChar c) (r2.dropWhile pyIsSpaceChar)).map Prod.fst
  | _ => none

/-- `Réf\.\s*(?:de l\x27annonce\s*)?:\s*(\S+)` at one position: the
optional group is tried first and backtracked if the colon does not
follow. -/
def refAt (cs : List Char) : Option (List Char) :=
  match dropLit "Réf.".data cs with
  | none => none
  | some r1 =>
    let r2 := r1.dropWhile pyIsSpaceChar
    match dropLit "de l\x27annonce".data r2 with
    | some r3 =>
      match refColon (r3.dropWhile pyIsSpaceChar) with
      | some g => some g
      | none => refColon r2
    | none => refColon r2

def refSearch : List Char → Option (List Char) := searchWith refAt

/-- `(\d+\s+\w+\.?\s+\d+)` date capture of the published/modified
patterns. -/
def dateCapture (cs : List Char) : Option (List Char) :=
  match takeWhile1 Char.isDigit cs with
  | some (d1, r1) =>
    match takeWhile1 pyIsSpaceChar r1 with
    | some (s1, r2) =>
      match takeWhile1 pyIsWordChar r2 with
      | some (w, r3) =>
        match (match r3 with
          | '.' :: t => (['.'], t)
          | _ => (([] : List Char), r3)) with
        | (dot, r4) =>
          match takeWhile1 pyIsSpaceChar r4 with
          | some (s2, r5) =>
            match takeWhile1 Char.isDigit r5 with
            | some (d2, _) => some (d1 ++ s1 ++ w ++ dot ++ s2 ++ d2)
            | none => none
          | none => none
      | none => none
    | none => none
  | none => none

/-- `Publiée?\s+le\s+(...)` / `Modifiée?\s+le\s+(...)` at one position. -/
def dateAt (lit : List Char) (cs : List Char) : Option (List Char) :=
  match dropLit lit cs with
  | none => none
  | some r1 =>
    let r2 := match r1 with
      | 'e' :: t => t
      | _ => r1
    match takeWhile1 pyIsSpaceChar r2 with
    | some (_, r3) =>
      match dropLit "le".data r3 with
      | some r4 =>
        match takeWhile1 pyIsSpaceChar r4 with
        | some (_, r5) => dateCapture r5
        | none => none
      | none => none
    | none => none

def pubSearch (cs : List Char) : Option (List Char) := searchWith (dateAt "Publié".data) cs

def modSearch (cs : List Char) : Option (List Char) := searchWith (dateAt "Modifié".data) cs

/-- `\d{5}` somewhere in the text (the agency-address test). -/
def hasFiveDigits : List Char → Bool
  | [] => false
  | c :: rest =>
    (((c :: rest).take 5).length = 5 && ((c :: rest).take 5).all Char.isDigit) ||
      hasFiveDigits rest

-- ### parse_title_text (src/utils.py, lines 167-221)

/-- The `(\d+)\s*pièces?` rooms pattern at one position. -/
def roomsAt (cs : List Char) : Option (List Char) :=
  match takeWhile1 Char.isDigit cs with
  | some (ds, r1) =>
    if (dropLit "pièce".data (r1.dropWhile pyIsSpaceChar)).isSome then some ds else none
  | none => none

/-- The `(\d+(?:[,\.]\d+)?)\s*m²` area pattern at one position. -/
def areaAt (cs : List Char) : Option (List Char) :=
  match takeWhile1 Char.isDigit cs with
  | some (ds, r1) =>
    match (match r1 with
      | sep :: t =>
        if sep = ',' || sep = '.' then
          match takeWhile1 Char.isDigit t with
          | some (ds2, t2) => (sep :: ds2, t2)
          | none => (([] : List Char), r1)
        else (([] : List Char), r1)
      | [] => (([] : List Char), r1)) with
    | (dec, r2) =>
      if (dropLit "m²".data (r2.dropWhile pyIsSpaceChar)).isSome then some (ds ++ dec)
      else none
  | none => none

/-- Terminator `(?:\s*\(|$)` of the postal-code pattern. -/
def postalTerm (rest : List Char) : Bool :=
  match rest.dropWhile pyIsSpaceChar with
  | '(' :: _ => true
  | _ => rest.isEmpty || rest = ['\n']

/-- The `(\d{5})\s+([^(]+?)(?:\s*\(|$)` pattern at one position. -/
def postalAt (cs : List Char) : Option (List Char × List Char) :=
  if (cs.take 5).length = 5 && (cs.take 5).all Char.isDigit then
    match takeWhile1 pyIsSpaceChar (cs.drop 5) with
    | some (_, r2) =>
      match lazyGroupT (fun c => c ≠ '(') postalTerm r2 with
      | some g => some (cs.take 5, g)
      | none => none
    | none => none
  else none

/-- The `\(([^)]+)\)` district pattern at one position. -/
def districtAt (cs : List Char) : Option (List Char) :=
  match cs with
  | '(' :: r1 =>
    match takeWhile1 (fun c => c ≠ ')') r1 with
    | some (g, r2) =>
      match r2 with
      | ')' :: _ => some g
      | _ => none
    | none => none
  | _ => none

/-- The French-to-canonical property-type table, in its declared order
(first substring match wins). -/
def titlePropertyTypes : List (String × String) :=
  [("appartement", "apartment"), ("maison", "house"), ("studio", "studio"),
   ("duplex", "duplex"), ("loft", "loft"), ("terrain", "land"),
   ("parking", "parking"), ("commerce", "commercial"), ("bureaux", "office"),
   ("villa", "house"), ("immeuble", "building")]

def findPropertyType (titleLower : List Char) : Option String :=
  titlePropertyTypes.findSome? (fun p =>
    if containsSeq p.1.data titleLower then some p.2 else none)

/-- Exact value of a digit string with an optional single dot, as Python
`float` computes it. -/
def decStrToRat (cs : List Char) : ℚ :=
  let intPart := cs.takeWhile Char.isDigit
  match cs.dropWhile Char.isDigit with
  | '.' :: frac => (digitsToNat intPart : ℚ) + (digitsToNat frac : ℚ) / ((10 : ℚ) ^ frac.length)
  | _ => (digitsToNat intPart : ℚ)

/-- Python `float()` on a candidate made of digits, dots (commas already
replaced): succeeds iff there is at least one digit and at most one dot;
otherwise ValueError. -/
def pyFloatOfDigitsDots (cs : List Char) : Option ℚ :=
  if cs.all (fun c => Char.isDigit c || c = '.') &&
      (cs.filter (fun c => c = '.')).length ≤ 1 &&
      cs.any Char.isDigit then
    some (decStrToRat cs)
  else none

/-- `parse_title_text`: property type by first-match substring lookup,
rooms, area, postal code + city, district — each independently optional. -/
def parse_title_text (title : String) : PyDict :=
  let tl := (pyLower title).data
  let result : PyDict := []
  let result := match findPropertyType tl with
    | some t => dictSet result "property_type" (vStr t)
    | none => result
  let result := match searchWith roomsAt title.data with
    | some ds => dictSet result "rooms" (vInt (Int.ofNat (digitsToNat ds)))
    | none => result
  let result := match searchWith areaAt title.data with
    | some g => dictSet result "living_area"
        (vFloat (decStrToRat (g.map (fun c => if c = ',' then '.' else c))))
    | none => result
  let result := match searchWith postalAt title.data with
    | some (d5, g2) =>
      dictSet (dictSet result "postal_code" (vStr (String.mk d5)))
        "city" (vStr (String.mk (pyStrip g2)))
    | none => result
  let result := match searchWith districtAt title.data with
    | some g => dictSet result "district" (vStr (String.mk g))
    | none => result
  result

-- ### parse_price_per_sqm (src/utils.py, lines 403-434)

/-- The `([\d,\.]+)\s*k` pattern at one position (applied to the lowered
text); returns group(1). -/
def kNumAt (cs : List Char) : Option (List Char) :=
  match takeWhile1 feesClass cs with
  | some (g, r) =>
    match r.dropWhile pyIsSpaceChar with
    | 'k' :: _ => some g
    | _ => none
  | none => none

/-- `parse_price_per_sqm`: the "k"-suffixed decimal branch (whose float
may fail, silently falling through), then the plain digit-run branch. -/
def parse_price_per_sqm (text : String) : Option ℚ :=
  if text.isEmpty then none
  else
    let kres : Option ℚ :=
      match searchWith kNumAt (pyLower text).data with
      | some g =>
        match pyFloatOfDigitsDots (g.map (fun c => if c = ',' then '.' else c)) with
        | some q => some (q * 1000)
        | none => none
      | none => none
    match kres with
    | some q => some q
    | none =>
      match searchWith (fun cs => (takeWhile1 priceClass cs).map Prod.fst) text.data with
      | some g =>
        let clean := g.filter Char.isDigit
        if clean.isEmpty then none else some ((digitsToNat clean : ℚ))
      | none => none

-- ### Listing id derivation (src/utils.py, lines 237-239)

/-- Python `str.split("/")` (keeps empty segments; `"".split("/") = [""]`). -/
def splitOnSlash : List Char → List (List Char)
  | [] => [[]]
  | c :: rest =>
    let r := splitOnSlash rest
    if c = '/' then [] :: r
    else
      match r with
      | h :: t => (c :: h) :: t
      | [] => [[c]]

/-- `url.rstrip("/").split("/")[-1].split("?")[0]` (split never returns an
empty list, so the `if parts` guard always passes). -/
def listingIdFromUrl (url : String) : String :=
  let stripped := (url.data.reverse.dropWhile (fun c => c = '/')).reverse
  let parts := splitOnSlash stripped
  String.mk ((parts.getLastD []).takeWhile (fun c => c ≠ '?'))

-- ### The detail-page document model and parse_property_detail
-- (src/utils.py, lines 224-378)

/-- Abstraction of the BeautifulSoup document as seen by
`parse_property_detail`: the DOM queries the source performs are modelled
as the values they return.  `pageText` is `soup.get_text()`; `h1` the
stripped text of the first h1, if any; `energySectionText` the text of the
parent of a text node containing "Performance énergétique", when that node
and parent exist; `dpeLetterNodes` the texts of nodes matching
`^\s*[A-G]\s*$` whose parent's class mentions "dpe", in document order;
`agencySection` (present when a node containing "À propos de l\x27agence"
with a parent exists) the optional inner h1 text and the div/span/p
descendant texts in order; `descSectionText` the stripped text of the
sibling/parent block next to a "Descriptif de ce" node.  A tagless
document corresponds to all DOM fields empty and `pageText` the raw
text. -/
structure HtmlDoc where
  pageText : String
  h1 : Option String
  energySectionText : Option String
  dpeLetterNodes : List String
  agencySection : Option (Option String × List String)
  descSectionText : Option String

def optIntToVal : Option Int → PyVal
  | some n => vInt n
  | none => vNone

def optRatToVal : Option ℚ → PyVal
  | some q => vFloat q
  | none => vNone

/-- Fold a list of conditional assignments into the dict, in order. -/
def setAll (d : PyDict) (kvs : List (String × Option PyVal)) : PyDict :=
  kvs.foldl (fun acc kv => maybeSet acc kv.1 kv.2) d

/-- The agency-fees pass: `Honoraires\s*:\s*([\d,\.]+)\s*%` followed by
`float(group(1).replace(",", "."))` — the only unguarded conversion in
the extractor; a capture like "1.2.3" raises ValueError. -/
def detailFees (text : List Char) : Except String (Option ℚ) :=
  match feesSearch text with
  | some g =>
    match pyFloatOfDigitsDots (g.map (fun c => if c = ',' then '.' else c)) with
    | some q => Except.ok (some q)
    | none => Except.error "ValueError: could not convert string to float"
  | none => Except.ok none

/-- The assignments up to and including price_without_fees, floor,
exposure, heating (source order), with the fees value passed in. -/
def preDpeUpdates (text : List Char) (feesOpt : Option ℚ) : List (String × Option PyVal) :=
  [("price", (detailPriceSearch text).map (fun g => optIntToVal (parse_price (String.mk g)))),
   ("price_per_sqm", (sqmSearch text).map (fun g => optRatToVal (parse_price_per_sqm (String.mk g)))),
   ("agency_fees_percent", feesOpt.map vFloat),
   ("price_without_fees", (priceHorsSearch text).map (fun g => optIntToVal (parse_price (String.mk g)))),
   ("floor", (floorSearch text).map (fun r =>
      match r with
      | some ds => vStr (String.mk ds)
      | none => vStr "0")),
   ("exposure", (exposureSearch text).map (fun g => vStr (String.mk (pyStrip g)))),
   ("heating_type", (heatingSearch text).map (fun g => vStr (String.mk (pyStrip g))))]

/-- Main energy pass: landmark section, then `\b([A-G])\b.*?(\d+)\s*kWh`
over its text, setting rating and consumption together. -/
def energyMainPair (doc : HtmlDoc) : Option (Char × List Char) :=
  match doc.energySectionText with
  | some st => energyRatingSearch st.data
  | none => none

def energyMainUpdates (doc : HtmlDoc) : List (String × Option PyVal) :=
  [("energy_rating", (energyMainPair doc).map (fun p => vStr (String.mk [p.1]))),
   ("energy_consumption", (energyMainPair doc).map (fun p => vInt (Int.ofNat (digitsToNat p.2))))]

/-- Fallback energy pass: first isolated dpe-classed letter node,
stripped. -/
def energyAltUpdates (doc : HtmlDoc) : List (String × Option PyVal) :=
  [("energy_rating", doc.dpeLetterNodes.head?.map (fun s => vStr (String.mk (pyStrip s.data))))]

/-- All assignments after the DPE date, in source order: GES, energy
bill, mandate type, reference, dates, agency, description, tags,
contract type. -/
def lateUpdates (doc : HtmlDoc) (url : String) : List (String × Option PyVal) :=
  let text := doc.pageText.data
  [("ges_rating", (gesSearch text).map (fun p => vStr (String.mk [p.1]))),
   ("ges_emission", (gesSearch text).map (fun p => vInt (Int.ofNat (digitsToNat p.2)))),
   ("energy_bill_min", (billSearch text).map (fun p => optIntToVal (parse_price (String.mk p.1)))),
   ("energy_bill_max", (billSearch text).map (fun p => optIntToVal (parse_price (String.mk p.2)))),
   ("mandate_type", if containsSeq "exclusivité".data (pyLower doc.pageText).data then
      some (vStr "exclusive") else none),
   ("reference", (refSearch text).map (fun g => vStr (String.mk g))),
   ("published_date", (pubSearch text).map (fun g => vStr (String.mk g))),
   ("modified_date", (modSearch text).map (fun g => vStr (String.mk g))),
   ("agency_name", (doc.agencySection.bind Prod.fst).map vStr),
   ("agency_address", (doc.agencySection.bind (fun s =>
      s.2.find? (fun b => hasFiveDigits b.data && b.length < 100))).map vStr),
   ("description", doc.descSectionText.map (fun d => vStr (String.mk (d.data.take 2000)))),
   ("has_video", some (vBool (containsSeq "Vidéo".data text))),
   ("is_exclusive", some (vBool (containsSeq "Exclusivité".data text))),
   ("price_drop", some (vBool (containsSeq "Baisse de prix".data text))),
   ("contract_type", if containsSeq "/vente/".data url.data then some (vStr "buy")
      else if containsSeq "/location/".data url.data then some (vStr "rent")
      else none)]

/-- The assignments after the DPE date.  The fallback energy pass reads
the dict (`if not prop.get("energy_rating")`), so it stays
state-dependent. -/
def postDpeSteps (doc : HtmlDoc) (url : String) (d : PyDict) : PyDict :=
  let d1 := setAll d (energyMainUpdates doc)
  let d2 := if truthyOpt (dictGet d1 "energy_rating") then d1
    else setAll d1 (energyAltUpdates doc)
  setAll d2 (lateUpdates doc url)

/-- `parse_property_detail(html, url)` over the document model: url and
listing_id first, then title (+ its parsed sub-fields), then the
independent regex passes over the page text in source order.  The fees
pass is the one step that can raise; a raise aborts the call
(`Except.error`), discarding the partial dict, exactly as in Python. -/
def parse_property_detail (doc : HtmlDoc) (url : String) : Except String PyDict :=
  (detailFees doc.pageText.data).map (fun feesOpt =>
    let prop : PyDict := [("url", vStr url)]
    let prop := dictSet prop "listing_id" (vStr (listingIdFromUrl url))
    let prop := match doc.h1 with
      | some t =>
        (parse_title_text t).foldl (fun d kv => dictSet d kv.1 kv.2)
          (dictSet prop "title" (vStr t))
      | none => prop
    let text := doc.pageText.data
    let prop := setAll prop (preDpeUpdates text feesOpt)
    let prop := maybeSet prop "dpe_date" ((dpeSearch text).map (fun g => vStr (String.mk g)))
    postDpeSteps doc url prop)

-- ### Helper lemmas for the extractor claims

theorem takeWhile1_nil_iff (p : Char → Bool) (cs r : List Char) :
    takeWhile1 p cs = some ([], r) ↔ False := by
  constructor
  · intro h
    unfold takeWhile1 at h
    split at h
    · exact absurd h (by simp)
    · next hne =>
      injection h with hpair
      have hfst := congrArg Prod.fst hpair
      simp only [] at hfst
      exact hne (by rw [hfst]; rfl)
  · exact False.elim

theorem dpeAt_ne_nil (cs v : List Char) (h : dpeAt cs = some v) : v ≠ [] := by
  intro hemp
  subst hemp
  unfold dpeAt at h
  repeat' split at h
  all_goals simp_all [takeWhile1_nil_iff]

theorem searchWith_cons {α : Type} (f : List Char → Option α) (c : Char) (cs : List Char) :
    searchWith f (c :: cs) = match f (c :: cs) with
      | some r => some r
      | none => searchWith f cs := rfl

theorem searchWith_some {α : Type} (f : List Char → Option α) (P : α → Prop)
    (hf : ∀ cs r, f cs = some r → P r) :
    ∀ cs r, searchWith f cs = some r → P r := by
  intro cs
  induction cs with
  | nil => exact fun r h => hf [] r h
  | cons c rest ih =>
    intro r h
    rw [searchWith_cons] at h
    cases hc : f (c :: rest) with
    | some r' =>
      rw [hc] at h
      injection h with h
      subst h
      exact hf _ _ hc
    | none =>
      rw [hc] at h
      exact ih r h

theorem dpeSearch_ne_nil (cs v : List Char) (h : dpeSearch cs = some v) : v ≠ [] :=
  searchWith_some dpeAt (fun g => g ≠ []) dpeAt_ne_nil cs v h

theorem stringMk_isEmpty_false (v : List Char) (h : v ≠ []) :
    (String.mk v).isEmpty = false := by
  by_contra hc
  rw [Bool.not_eq_false] at hc
  have hs : String.mk v = "" := (String.isEmpty_iff (String.mk v)).1 hc
  exact h (congrArg String.data hs)

theorem setAll_cons (d : PyDict) (kv : String × Option PyVal)
    (rest : List (String × Option PyVal)) :
    setAll d (kv :: rest) = setAll (maybeSet d kv.1 kv.2) rest := rfl

theorem dictGet_setAll_notMem (d : PyDict) (kvs : List (String × Option PyVal)) (k : String)
    (h : k ∉ kvs.map Prod.fst) : dictGet (setAll d kvs) k = dictGet d k := by
  induction kvs generalizing d with
  | nil => rfl
  | cons kv rest ih =>
    simp only [List.map_cons, List.mem_cons, not_or] at h
    rw [setAll_cons, ih _ h.2, dictGet_maybeSet_ne _ _ _ _ (fun he => h.1 he.symm)]

theorem lateUpdates_keys (doc : HtmlDoc) (url : String) :
    (lateUpdates doc url).map Prod.fst =
      ["ges_rating", "ges_emission", "energy_bill_min", "energy_bill_max",
       "mandate_type", "reference", "published_date", "modified_date",
       "agency_name", "agency_address", "description", "has_video",
       "is_exclusive", "price_drop", "contract_type"] := rfl

theorem energyMainUpdates_keys (doc : HtmlDoc) :
    (energyMainUpdates doc).map Prod.fst = ["energy_rating", "energy_consumption"] := rfl

theorem energyAltUpdates_keys (doc : HtmlDoc) :
    (energyAltUpdates doc).map Prod.fst = ["energy_rating"] := rfl

theorem dictGet_postDpe_dpe (doc : HtmlDoc) (url : String) (d : PyDict) :
    dictGet (postDpeSteps doc url d) "dpe_date" = dictGet d "dpe_date" := by
  simp only [postDpeSteps]
  rw [dictGet_setAll_notMem _ _ _ (by rw [lateUpdates_keys]; decide)]
  split
  · rw [dictGet_setAll_notMem _ _ _ (by rw [energyMainUpdates_keys]; decide)]
  · rw [dictGet_setAll_notMem _ _ _ (by rw [energyAltUpdates_keys]; decide),
      dictGet_setAll_notMem _ _ _ (by rw [energyMainUpdates_keys]; decide)]

theorem mem_dictKeys_of_get (d : PyDict) (k : String) (v : PyVal)
    (h : dictGet d k = some v) : k ∈ dictKeys d := by
  induction d with
  | nil => cases h
  | cons p rest ih =>
    obtain ⟨k', v'⟩ := p
    by_cases hk : k' = k
    · subst hk
      simp [dictKeys]
    · unfold dictGet at h
      rw [if_neg hk] at h
      have := ih h
      simp only [dictKeys, List.map_cons] at this ⊢
      exact List.mem_cons_of_mem _ this

-- ### Claim theorems (part 2: the extractor claims)

/-- C2: the claim that parse_property_detail never raises is refuted by the
code: its agency-fees pass feeds the capture of `([\d,\.]+)` straight into
`float()` without a guard, so a page whose visible text contains
"Honoraires : 1.2.3 %" raises ValueError (here: the tagless document whose
whole text is that string).  Every other conversion in the extractor is
either guarded by a try/except or applied to a capture that is always a
valid literal. -/
theorem C2_detail_extractor_raises :
    parse_property_detail ⟨"Honoraires : 1.2.3 %", none, none, [], none, none⟩
      "https://www.bienici.com/annonce/vente/x/3p/abc" =
      Except.error "ValueError: could not convert string to float" := by rfl

/-- C4: whenever the page text matches the DPE-date pattern, the parsed
detail dict carries the key "dpe_date"; that key is not a Property
dataclass field, the merge copies it into the merged mapping (the index
record has no such key, and the value is truthy), `Property(**merged)`
hence raises TypeError, and the record-construction loop drops the whole
listing from the output. -/
theorem C4_dpe_date_drops_record (doc : HtmlDoc) (url : String) (d index : PyDict)
    (v : List Char)
    (hparse : parse_property_detail doc url = Except.ok d)
    (hdpe : dpeSearch doc.pageText.data = some v)
    (hnd : (dictKeys d).Nodup)
    (hidx : dictGet index "dpe_date" = none) :
    "dpe_date" ∉ propertyFields ∧
    dictGet d "dpe_date" = some (vStr (String.mk v)) ∧
    dictGet (mergeDetail index d) "dpe_date" = some (vStr (String.mk v)) ∧
    propertyCtorAccepts (mergeDetail index d) = false ∧
    buildRecords [mergeDetail index d] = [] := by
  have hd : dictGet d "dpe_date" = some (vStr (String.mk v)) := by
    unfold parse_property_detail at hparse
    cases hfees : detailFees doc.pageText.data with
    | error e =>
      rw [hfees] at hparse
      exact absurd hparse (by simp [Except.map])
    | ok feesOpt =>
      rw [hfees] at hparse
      simp only [Except.map] at hparse
      injection hparse with hparse
      rw [← hparse]
      simp only [dictGet_postDpe_dpe, hdpe, Option.map_some', maybeSet]
      exact dictGet_dictSet_self _ _ _
  have hvne : v ≠ [] := dpeSearch_ne_nil _ _ hdpe
  have htr : truthy (vStr (String.mk v)) = true := by
    simp only [truthy, stringMk_isEmpty_false v hvne, Bool.not_false]
  have hmerge : dictGet (mergeDetail index d) "dpe_date" = some (vStr (String.mk v)) := by
    rw [dictGet_mergeDetail index d _ hnd]
    unfold mergeSpecGet
    rw [hd, hidx]
    simp [htr, truthyOpt]
  have hmem : "dpe_date" ∈ dictKeys (mergeDetail index d) :=
    mem_dictKeys_of_get _ _ _ hmerge
  have hacc : propertyCtorAccepts (mergeDetail index d) = false := by
    have hnall : ¬ ((dictKeys (mergeDetail index d)).all
        (fun k => propertyFields.contains k) = true) := by
      rw [List.all_eq_true]
      intro hall
      exact absurd (hall _ hmem) (by decide)
    unfold propertyCtorAccepts
    cases hb : (dictKeys (mergeDetail index d)).all (fun k => propertyFields.contains k) with
    | true => exact absurd hb hnall
    | false => rfl
  refine ⟨by decide, hd, hmerge, hacc, ?_⟩
  unfold buildRecords
  simp [List.filter, hacc]

/-- The concrete witness document for C4: its whole visible text is a DPE
realisation date line, all DOM landmarks absent. -/
def c4Doc : HtmlDoc := ⟨"Date de réalisation du DPE : 1 a 2", none, none, [], none, none⟩

/-- The dict parse_property_detail produces on `c4Doc` with url "u". -/
def c4Detail : PyDict :=
  [("url", vStr "u"), ("listing_id", vStr "u"), ("dpe_date", vStr "1 a 2"),
   ("has_video", vBool false), ("is_exclusive", vBool false), ("price_drop", vBool false)]

/-- C4 witness: the theorem applied to the concrete document, the empty
index record, and the capture "1 a 2", with all hypotheses evaluated. -/
theorem C4_dpe_date_drops_record_witness :
    "dpe_date" ∉ propertyFields ∧
    dictGet c4Detail "dpe_date" = some (vStr (String.mk "1 a 2".data)) ∧
    dictGet (mergeDetail [] c4Detail) "dpe_date" = some (vStr (String.mk "1 a 2".data)) ∧
    propertyCtorAccepts (mergeDetail [] c4Detail) = false ∧
    buildRecords [mergeDetail [] c4Detail] = [] :=
  C4_dpe_date_drops_record c4Doc "u" c4Detail [] "1 a 2".data
    (by rfl) (by rfl) (by decide) (by rfl)
